import Mathlib

/-!
Shallow embedding of the task-orchestration core of the AI-Deep-Research-Agent
repository (`src/parallel_research.py` and `src/deep_research.py`).

A remote task (one `Runner.run(agent, input)` call) is modelled as the pair of
its completion time and its result: `Nat × Except PyError α`.  The `Except`
error channel models a Python exception propagating out of the awaited call;
`.ok` models a normal return.  The external Executor is a function
`String → Nat × Except PyError String` from the input string handed to
`Runner.run` to the completion time and result of that call.  Completion times
let the embedding state which behaviours are independent of completion order
and which task "wins" a race.
-/

namespace Research

/-- Python exception values relevant to the orchestration code.
`asyncio.CancelledError` is *not* a subclass of `Exception` (Python ≥ 3.8),
every other variant is. -/
inductive PyError where
  | exception (msg : String)
  | timeoutError
  | cancelledError
  | valueError (msg : String)
deriving DecidableEq, Repr

/-- Whether `except Exception` catches this error (everything except
`asyncio.CancelledError`). -/
def PyError.isException : PyError → Bool
  | .cancelledError => false
  | _ => true

/-- Whether `except asyncio.TimeoutError` catches this error. -/
def PyError.isTimeoutError : PyError → Bool
  | .timeoutError => true
  | _ => false

/-- Python `str(e)` for the errors above (a bare `TimeoutError()` or
`CancelledError()` prints as the empty string). -/
def PyError.str : PyError → String
  | .exception msg => msg
  | .timeoutError => ""
  | .cancelledError => ""
  | .valueError msg => msg

instance {ε α : Type} [DecidableEq ε] [DecidableEq α] :
    DecidableEq (Except ε α) := fun x y =>
  match x, y with
  | .ok a, .ok b =>
    if h : a = b then .isTrue (by rw [h]) else .isFalse (by simp [h])
  | .ok _, .error _ => .isFalse (by simp)
  | .error _, .ok _ => .isFalse (by simp)
  | .error e, .error f =>
    if h : e = f then .isTrue (by rw [h]) else .isFalse (by simp [h])

/-- `true` iff the call raised. -/
def isErr {ε α : Type} : Except ε α → Bool
  | .error _ => true
  | .ok _ => false

/-- The value of a normally returning call, `none` if it raised. -/
def exVal {ε α : Type} : Except ε α → Option α
  | .ok a => some a
  | .error _ => none

/-- Fold step selecting the earliest-failing task (ties broken towards the
earlier submission index, the event loop's FIFO order). -/
def ffStep {α : Type} (acc : Option (Nat × PyError))
    (p : Nat × Except PyError α) : Option (Nat × PyError) :=
  match p.2 with
  | .ok _ => acc
  | .error e =>
    match acc with
    | none => some (p.1, e)
    | some (t, e0) => if p.1 < t then some (p.1, e) else some (t, e0)

/-- The failing task `asyncio.gather` propagates first: among the tasks that
raise, the one with the earliest completion time. -/
def firstFailure {α : Type} (tasks : List (Nat × Except PyError α)) :
    Option (Nat × PyError) :=
  tasks.foldl ffStep none

/-- `await asyncio.gather(*tasks)` (no `return_exceptions`): if every task
returns normally, the list of results in submission order — independent of the
completion times; otherwise the exception of the earliest-failing task
propagates out of the `gather` call. -/
def gather {α : Type} (tasks : List (Nat × Except PyError α)) :
    Except PyError (List α) :=
  match firstFailure tasks with
  | some (_, e) => .error e
  | none => .ok (tasks.filterMap (fun p => exVal p.2))

/-- `WebSearchItem` (pydantic schema in `deep_research.py`). -/
structure WebSearchItem where
  reason : String
  query : String
deriving DecidableEq, Repr

/-- The input string `search` in `deep_research.py` builds for `Runner.run`. -/
def searchInput (item : WebSearchItem) : String :=
  "Search term: " ++ item.query ++ "\nReason for searching: " ++ item.reason

/-- The task spawned for one search item: `Runner.run(search_agent, input_msg)`
with its completion time.  `search` itself wraps no exception handler around
the call. -/
def searchTimed (runner : String → Nat × Except PyError String)
    (item : WebSearchItem) : Nat × Except PyError String :=
  runner (searchInput item)

/-- `search(item)` from `deep_research.py`: runs the search agent once and
returns `result.final_output`; an exception from the run propagates. -/
def search (runner : String → Nat × Except PyError String)
    (item : WebSearchItem) : Except PyError String :=
  (searchTimed runner item).2

/-- `perform_searches(search_plan)` from `deep_research.py`: one task per plan
item, `asyncio.gather` over all of them. -/
def perform_searches (runner : String → Nat × Except PyError String)
    (plan : List WebSearchItem) : Except PyError (List String) :=
  gather (plan.map (searchTimed runner))

/-- The query list hard-coded in `basic_parallel_searches`. -/
def basicQueries : List String :=
  ["OpenAI Agents SDK features", "LangGraph capabilities",
   "Crew AI framework overview"]

/-- `basic_parallel_searches` from `parallel_research.py`: one
`Runner.run(agent, query)` task per query, gathered; the gathered results (as
printed for the user) are the observable output. -/
def basic_parallel_searches (runner : String → Nat × Except PyError String) :
    Except PyError (List String) :=
  gather (basicQueries.map runner)

/-- Body of the `for i in range(0, len(queries), batch_size)` loop in
`batch_parallel_searches`, for a positive step `bs`: slice
`queries[i : i+batch_size]`, gather one task per query of the slice, append
the batch results, move `i` forward by `batch_size`.  The `bs = 0` branch is
unreachable (callers pass `bs ≥ 1`; `range` with step 0 is handled before the
loop is ever entered). -/
def batchLoop (runner : String → Nat × Except PyError String)
    (queries : List String) (bs : Nat) (i : Nat) (acc : List String) :
    Except PyError (List String) :=
  if hbs : bs = 0 then .ok acc
  else if hi : i < queries.length then
    match gather (((queries.drop i).take bs).map runner) with
    | .error e => .error e
    | .ok res => batchLoop runner queries bs (i + bs) (acc ++ res)
  else .ok acc
termination_by queries.length - i
decreasing_by omega

/-- `batch_parallel_searches(queries, batch_size)` from `parallel_research.py`.
`batch_size` is a Python int: step 0 makes `range(0, n, 0)` raise
`ValueError("range() arg 3 must not be zero")`; a negative step makes
`range(0, n, negative)` empty, so the loop body never runs and the empty
accumulator is returned; a positive step walks the chunks. -/
def batch_parallel_searches (runner : String → Nat × Except PyError String)
    (queries : List String) (batch_size : Int) :
    Except PyError (List String) :=
  if batch_size = 0 then .error (.valueError "range() arg 3 must not be zero")
  else if batch_size < 0 then .ok []
  else batchLoop runner queries batch_size.toNat 0 []

/-- The success / failure dictionaries returned by `search_with_retry`:
`{"query", "result", "attempts"}` on success and
`{"query", "result": None, "error", "attempts"}` on exhaustion. -/
inductive RetryOutcome where
  | success (query result : String) (attempts : Nat)
  | failure (query error : String) (attempts : Nat)
deriving DecidableEq, Repr

/-- One run of `search_with_retry`, instrumented with its observable effects:
`result` is the Python return value (`.error` = an exception escaped the call,
`.ok none` = the function fell through the loop and returned `None`),
`calls` counts the `Runner.run` invocations, `sleeps` lists the
`asyncio.sleep` durations in seconds, in order. -/
structure RetryRun where
  result : Except PyError (Option RetryOutcome)
  calls : Nat
  sleeps : List Nat
deriving DecidableEq, Repr

/-- The `for attempt in range(max_retries)` loop of `search_with_retry`,
indexed by `remaining = max_retries - attempt`, the number of loop iterations
still to run (so `remaining = 0` is the loop falling through and returning
`None`, and `remaining = 1` means `attempt == max_retries - 1`, the last
attempt).  Each iteration tries `Runner.run`; on a normal return it answers
with `attempts = attempt + 1`; on an exception caught by `except Exception`
it either answers with the failure dictionary (last attempt) or
`await asyncio.sleep(2 ** attempt)` and retries; an exception not caught by
`except Exception` (e.g. `asyncio.CancelledError`) propagates. -/
def retryGo (ex : Nat → Except PyError String) (q : String) :
    Nat → Nat → Nat → List Nat → RetryRun
  | 0, _, calls, sleeps => ⟨.ok none, calls, sleeps⟩
  | remaining + 1, attempt, calls, sleeps =>
    match ex attempt with
    | .ok r => ⟨.ok (some (.success q r (attempt + 1))), calls + 1, sleeps⟩
    | .error e =>
      if e.isException then
        if remaining = 0 then
          ⟨.ok (some (.failure q e.str (attempt + 1))), calls + 1, sleeps⟩
        else retryGo ex q remaining (attempt + 1) (calls + 1)
          (sleeps ++ [2 ^ attempt])
      else ⟨.error e, calls + 1, sleeps⟩

/-- `search_with_retry(query, max_retries)` from `parallel_research.py`.
The executor `ex` gives the result of the `Runner.run` call on each attempt
(0-indexed).  `max_retries` is a Python int: `range(max_retries)` iterates
`max(0, max_retries)` times. -/
def search_with_retry (ex : Nat → Except PyError String) (q : String)
    (max_retries : Int) : RetryRun :=
  retryGo ex q max_retries.toNat 0 0 []

/-- The dictionaries returned by `search_with_timeout`:
`{"query", "result", "status"}` with status `"success"` or `"timeout"`. -/
structure TimeoutSearchResult where
  query : String
  result : Option String
  status : String
deriving DecidableEq, Repr

/-- `search_with_timeout(query, timeout)` from `parallel_research.py`.
First component: the Python return value (`.error` = an exception other than
`asyncio.TimeoutError` escaped).  Second component: whether `asyncio.wait_for`
sent a cancellation signal to the underlying task (it does exactly when the
timer fires before the task completes). -/
def search_with_timeout (runner : String → Nat × Except PyError String)
    (query : String) (timeout : Nat) :
    Except PyError TimeoutSearchResult × Bool :=
  if timeout < (runner query).1 then
    (.ok ⟨query, none, "timeout"⟩, true)
  else
    match (runner query).2 with
    | .ok v => (.ok ⟨query, some v, "success"⟩, false)
    | .error e =>
      if e.isTimeoutError then (.ok ⟨query, none, "timeout"⟩, false)
      else (.error e, false)

/-- The dictionary a `search_task` coroutine in `parallel_research.py`
resolves to. -/
structure SearchTaskResult where
  agent_id : Nat
  query : String
  result : String
  time : Nat
deriving DecidableEq, Repr

/-- `search_task(query, agent_id)`: awaits `Runner.run` with no exception
handler, so an exception propagates and completes the task exceptionally;
otherwise the task resolves to the result dictionary. -/
def search_task (runner : String → Nat × Except PyError String)
    (query : String) (agent_id : Nat) : Nat × Except PyError SearchTaskResult :=
  let p := runner query
  (p.1, p.2.map (fun v => ⟨agent_id, query, v, p.1⟩))

/-- `race_to_answer` from `parallel_research.py`, over an arbitrary nonempty
list of racing tasks (the source races three `search_task`s).
`asyncio.wait(tasks, return_when=FIRST_COMPLETED)` returns at the earliest
completion time with `done` = the tasks completed at that time and `pending` =
the rest; `list(done)[0]` picks one done task (modelled as the earliest
submitted among them); `winner.result()` re-raises if that task completed with
an exception — in that case the `task.cancel()` loop below it is never
reached.  First component: the winner's result (`.error` = the exception
propagating out of the call).  Second component: the number of cancellation
signals sent (`len(pending)` is also the loser count the source reports).
`asyncio.wait` on an empty collection raises `ValueError`. -/
def race_to_answer {α : Type} (tasks : List (Nat × Except PyError α)) :
    Except PyError α × Nat :=
  match tasks with
  | [] => (.error (.valueError "Set of Tasks/Futures is empty."), 0)
  | t :: ts =>
    let tmin := ts.foldl (fun m p => min m p.1) t.1
    let winner := (((t :: ts).find? (fun p => p.1 == tmin)).getD t)
    match winner.2 with
    | .error e => (.error e, 0)
    | .ok v =>
      (.ok v, (t :: ts).length -
        ((t :: ts).filter (fun p => p.1 == tmin)).length)

/-! Concrete executors and inputs used by witnesses and counterexamples. -/

/-- An executor whose latency is inversely correlated with query length and
that always returns normally. -/
def w1Runner : String → Nat × Except PyError String :=
  fun q => (100 - q.length, .ok (q ++ "!"))

def w1F : String → String := fun q => q ++ "!"

def w1Plan : List WebSearchItem :=
  [⟨"why a", "a"⟩, ⟨"why b", "b"⟩, ⟨"why c", "c"⟩, ⟨"why d", "d"⟩]

def w1Queries : List String := ["q1", "q2", "q3", "q4", "q5"]

/-- The plan item whose search raises in the C4 scenario. -/
def c4BadItem : WebSearchItem := ⟨"r2", "b"⟩

/-- An executor that raises (earliest completion, time 1) exactly on query
`"b"` and on the search input built from `c4BadItem`, and returns normally
(time 5) everywhere else. -/
def c4Runner : String → Nat × Except PyError String :=
  fun s =>
    if s = "b" ∨ s = searchInput c4BadItem then (1, .error (.exception "boom"))
    else (5, .ok (s ++ "!"))

def c4Plan : List WebSearchItem := [⟨"r1", "a"⟩, c4BadItem, ⟨"r3", "c"⟩]

def c4Queries : List String := ["a", "b", "c"]

/-- An executor failing with a generic `Exception` on every attempt. -/
def w5ExF : Nat → Except PyError String := fun _ => .error (.exception "err")

/-- An executor failing twice with a generic `Exception`, then succeeding. -/
def w5ExS : Nat → Except PyError String :=
  fun a => if a < 2 then .error (.exception "err") else .ok "yes"

/-- An executor whose first attempt raises `asyncio.TimeoutError` and whose
second attempt succeeds. -/
def c6Ex : Nat → Except PyError String :=
  fun a => if a = 0 then .error .timeoutError else .ok "v"

/-- An executor whose first attempt raises `asyncio.CancelledError`. -/
def w6ExC : Nat → Except PyError String := fun _ => .error .cancelledError

/-- An executor failing with a generic `Exception` on every attempt. -/
def w7Ex : Nat → Except PyError String := fun _ => .error (.exception "x")

/-- A trivially succeeding executor for the precondition-violation claims. -/
def c9Runner : String → Nat × Except PyError String := fun q => (1, .ok q)

def c9Ex : Nat → Except PyError String := fun _ => .ok "r"

def w9Runner : String → Nat × Except PyError String := fun q => (2, .ok q)

def w9Ex : Nat → Except PyError String := fun _ => .ok "s"

def w10Ex : Nat → Except PyError String := fun _ => .ok "t"

/-- An executor that always raises a generic `Exception`. -/
def c3Runner : String → Nat × Except PyError String :=
  fun _ => (1, .error (.exception "boom"))

def c3Item : WebSearchItem := ⟨"r", "q"⟩

def w3Item : WebSearchItem := ⟨"reason", "bad"⟩

def w3OkItem : WebSearchItem := ⟨"reason", "good"⟩

/-- An executor that raises exactly on the query `"bad"` and on the search
input built from `w3Item`, returning normally elsewhere. -/
def w3Runner : String → Nat × Except PyError String :=
  fun s =>
    if s = "bad" ∨ s = searchInput w3Item then (1, .error (.exception "oops"))
    else (2, .ok "fine")

/-- An executor needing 50 seconds for every query. -/
def w8Slow : String → Nat × Except PyError String := fun _ => (50, .ok "late")

/-- An executor answering in 1 second. -/
def w8Fast : String → Nat × Except PyError String := fun _ => (1, .ok "ans")

/-- Two raced tasks: the earlier one (time 1) completes exceptionally, the
later one (time 2) would have succeeded. -/
def c2Tasks : List (Nat × Except PyError String) :=
  [(1, .error (.exception "fail")), (2, .ok "answer")]

def w2Pre : List (Nat × Except PyError String) := [(5, .ok "slow")]

def w2Post : List (Nat × Except PyError String) :=
  [(7, .error (.exception "x")), (9, .ok "slower")]

def w2Winner : Nat × Except PyError String := (2, .ok "fast")

/-! Helper lemmas about `gather`. -/

theorem ffStep_of_ok {α : Type} (acc : Option (Nat × PyError))
    (p : Nat × Except PyError α) (h : isErr p.2 = false) : ffStep acc p = acc := by
  obtain ⟨t, r⟩ := p
  cases r with
  | ok v => rfl
  | error e => simp [isErr] at h

theorem ffStep_isSome {α : Type} (acc : Option (Nat × PyError))
    (p : Nat × Except PyError α) (h : acc.isSome = true) :
    (ffStep acc p).isSome = true := by
  obtain ⟨t, r⟩ := p
  cases r with
  | ok v => simpa [ffStep] using h
  | error e =>
    cases acc with
    | none => simp at h
    | some x =>
      obtain ⟨tx, ex⟩ := x
      simp only [ffStep]
      split <;> simp

theorem ffStep_isSome_of_err {α : Type} (acc : Option (Nat × PyError))
    (p : Nat × Except PyError α) (h : isErr p.2 = true) :
    (ffStep acc p).isSome = true := by
  obtain ⟨t, r⟩ := p
  cases r with
  | ok v => simp [isErr] at h
  | error e =>
    cases acc with
    | none => simp [ffStep]
    | some x =>
      obtain ⟨tx, ex⟩ := x
      simp only [ffStep]
      split <;> simp

theorem foldl_ffStep_const {α : Type} (tasks : List (Nat × Except PyError α))
    (h : ∀ p ∈ tasks, isErr p.2 = false) :
    ∀ acc, tasks.foldl ffStep acc = acc := by
  induction tasks with
  | nil => intro acc; rfl
  | cons hd tl ih =>
    intro acc
    rw [List.foldl_cons, ffStep_of_ok acc hd (h hd (List.mem_cons_self hd tl))]
    exact ih (fun p hp => h p (List.mem_cons_of_mem hd hp)) acc

theorem firstFailure_none {α : Type} (tasks : List (Nat × Except PyError α))
    (h : ∀ p ∈ tasks, isErr p.2 = false) : firstFailure tasks = none :=
  foldl_ffStep_const tasks h none

theorem foldl_ffStep_some_of {α : Type} (tasks : List (Nat × Except PyError α)) :
    ∀ acc : Option (Nat × PyError),
      ((∃ p ∈ tasks, isErr p.2 = true) ∨ acc.isSome = true) →
      (tasks.foldl ffStep acc).isSome = true := by
  induction tasks with
  | nil =>
    intro acc h
    rcases h with ⟨p, hp, _⟩ | hs
    · cases hp
    · exact hs
  | cons hd tl ih =>
    intro acc h
    rw [List.foldl_cons]
    apply ih
    rcases h with ⟨p, hp, he⟩ | hs
    · rcases List.mem_cons.mp hp with rfl | hmem
      · exact Or.inr (ffStep_isSome_of_err acc p he)
      · exact Or.inl ⟨p, hmem, he⟩
    · exact Or.inr (ffStep_isSome acc hd hs)

theorem filterMap_exVal_map {β α : Type} (g : β → Nat × Except PyError α)
    (f : β → α) (l : List β) (h : ∀ b ∈ l, (g b).2 = .ok (f b)) :
    (l.map g).filterMap (fun p => exVal p.2) = l.map f := by
  induction l with
  | nil => rfl
  | cons b tl ih =>
    have hb : exVal (g b).2 = some (f b) := by
      rw [h b (List.mem_cons_self b tl)]; rfl
    simp only [List.map_cons, List.filterMap_cons, hb]
    rw [ih (fun b hb => h b (List.mem_cons_of_mem _ hb))]

theorem gather_map_ok {β α : Type} (g : β → Nat × Except PyError α)
    (f : β → α) (l : List β) (h : ∀ b ∈ l, (g b).2 = .ok (f b)) :
    gather (l.map g) = .ok (l.map f) := by
  have h1 : firstFailure (l.map g) = none := by
    apply firstFailure_none
    intro p hp
    obtain ⟨b, hb, rfl⟩ := List.mem_map.mp hp
    simp [isErr, h b hb]
  simp [gather, h1, filterMap_exVal_map g f l h]

theorem gather_map_err {β α : Type} (g : β → Nat × Except PyError α)
    (l : List β) (h : ∃ b ∈ l, isErr (g b).2 = true) :
    ∃ e, gather (l.map g) = .error e := by
  obtain ⟨b, hb, he⟩ := h
  have h1 : (firstFailure (l.map g)).isSome = true :=
    foldl_ffStep_some_of _ none (Or.inl ⟨g b, List.mem_map_of_mem g hb, he⟩)
  obtain ⟨⟨t, e⟩, heq⟩ := Option.isSome_iff_exists.mp h1
  exact ⟨e, by simp [gather, firstFailure] at heq ⊢; simp [heq]⟩

theorem batchLoop_all_ok (runner : String → Nat × Except PyError String)
    (f : String → String) (queries : List String)
    (hok : ∀ q ∈ queries, (runner q).2 = .ok (f q)) (bs : Nat) (hbs : 1 ≤ bs) :
    ∀ n i acc, queries.length - i ≤ n →
      batchLoop runner queries bs i acc = .ok (acc ++ (queries.drop i).map f) := by
  intro n
  induction n with
  | zero =>
    intro i acc hn
    have hi : queries.length ≤ i := by omega
    rw [batchLoop, dif_neg (by omega : ¬ bs = 0), dif_neg (Nat.not_lt.mpr hi),
      List.drop_eq_nil_of_le hi, List.map_nil, List.append_nil]
  | succ n ih =>
    intro i acc hn
    by_cases hi : i < queries.length
    · have hchunk : ∀ q ∈ (queries.drop i).take bs, (runner q).2 = .ok (f q) :=
        fun q hq => hok q (List.mem_of_mem_drop (List.mem_of_mem_take hq))
      have hrec := ih (i + bs) (acc ++ ((queries.drop i).take bs).map f)
        (by omega)
      rw [batchLoop, dif_neg (by omega : ¬ bs = 0), dif_pos hi,
        gather_map_ok runner f _ hchunk]
      show batchLoop runner queries bs (i + bs)
        (acc ++ ((queries.drop i).take bs).map f) = _
      rw [hrec, List.append_assoc, ← List.map_append,
        List.drop_take_append_drop]
    · rw [batchLoop, dif_neg (by omega : ¬ bs = 0), dif_neg hi,
        List.drop_eq_nil_of_le (by omega), List.map_nil, List.append_nil]

theorem gather_map_ok_of_no_err {β α : Type} (g : β → Nat × Except PyError α)
    (l : List β) (h : ∀ b ∈ l, isErr (g b).2 = false) :
    ∃ res, gather (l.map g) = .ok res := by
  have h1 : firstFailure (l.map g) = none := by
    apply firstFailure_none
    intro p hp
    obtain ⟨b, hb, rfl⟩ := List.mem_map.mp hp
    exact h b hb
  refine ⟨(l.map g).filterMap (fun p => exVal p.2), ?_⟩
  unfold gather
  rw [h1]

theorem batchLoop_err (runner : String → Nat × Except PyError String)
    (queries : List String) (bs : Nat) (hbs : 1 ≤ bs) :
    ∀ n i acc, queries.length - i ≤ n →
      (∃ q ∈ queries.drop i, isErr (runner q).2 = true) →
      ∃ e, batchLoop runner queries bs i acc = .error e := by
  intro n
  induction n with
  | zero =>
    intro i acc hn hex
    obtain ⟨q, hq, _⟩ := hex
    rw [List.drop_eq_nil_of_le (by omega)] at hq
    cases hq
  | succ n ih =>
    intro i acc hn hex
    have hi : i < queries.length := by
      by_contra hcon
      obtain ⟨q, hq, _⟩ := hex
      rw [List.drop_eq_nil_of_le (by omega)] at hq
      cases hq
    by_cases hch : ∃ q ∈ (queries.drop i).take bs, isErr (runner q).2 = true
    · obtain ⟨e, he⟩ := gather_map_err runner _ hch
      exact ⟨e, by rw [batchLoop, dif_neg (by omega : ¬ bs = 0), dif_pos hi, he]⟩
    · push_neg at hch
      have hok' : ∀ q ∈ (queries.drop i).take bs, isErr (runner q).2 = false := by
        intro q hq
        simpa using hch q hq
      obtain ⟨res, hres⟩ := gather_map_ok_of_no_err runner _ hok'
      obtain ⟨q, hq, he⟩ := hex
      have hq2 : q ∈ queries.drop (i + bs) := by
        have hsplit := List.drop_take_append_drop queries i bs
        rw [← hsplit] at hq
        rcases List.mem_append.mp hq with h1 | h2
        · exact absurd (hok' q h1) (by simp [he])
        · exact h2
      obtain ⟨e, hrec⟩ := ih (i + bs) (acc ++ res) (by omega) ⟨q, hq2, he⟩
      refine ⟨e, ?_⟩
      rw [batchLoop, dif_neg (by omega : ¬ bs = 0), dif_pos hi, hres]
      exact hrec

/-- C1: for every ordered sequence of N task descriptions submitted to the
fan-out strategy (`asyncio.gather` over one task per query, as in
`basic_parallel_searches` and `perform_searches`) or to the batch strategy
(`batch_parallel_searches` with `batchSize ≥ 1`), when every task completes
normally the returned sequence of outcomes has length N and `result[i]` is the
outcome of `tasks[i]`, regardless of the completion order: the completion-time
component of `runner` is universally quantified and does not influence the
result. -/
theorem fanout_batch_preserve_order
    (runner : String → Nat × Except PyError String) (f : String → String)
    (plan : List WebSearchItem) (queries : List String) (batch_size : Int)
    (hok : ∀ q, (runner q).2 = .ok (f q)) (hbs : 1 ≤ batch_size) :
    basic_parallel_searches runner = .ok (basicQueries.map f) ∧
    perform_searches runner plan =
      .ok (plan.map (fun item => f (searchInput item))) ∧
    batch_parallel_searches runner queries batch_size =
      .ok (queries.map f) := by
  refine ⟨gather_map_ok runner f basicQueries (fun q _ => hok q), ?_, ?_⟩
  · exact gather_map_ok (searchTimed runner) (fun item => f (searchInput item))
      plan (fun item _ => hok (searchInput item))
  · have h0 : ¬ batch_size = 0 := by omega
    have h1 : ¬ batch_size < 0 := by omega
    rw [batch_parallel_searches, if_neg h0, if_neg h1]
    have := batchLoop_all_ok runner f queries (fun q _ => hok q)
      batch_size.toNat (by omega) queries.length 0 [] (by omega)
    simpa using this

/-- Witness for C1 at a concrete executor (latency inversely correlated with
query length), a 4-item plan, 5 queries and batch size 2. -/
theorem fanout_batch_preserve_order_witness :
    ((∀ q, (w1Runner q).2 = .ok (w1F q)) ∧ (1 : Int) ≤ 2) ∧
    (basic_parallel_searches w1Runner = .ok (basicQueries.map w1F) ∧
     perform_searches w1Runner w1Plan =
       .ok (w1Plan.map (fun item => w1F (searchInput item))) ∧
     batch_parallel_searches w1Runner w1Queries 2 = .ok (w1Queries.map w1F)) :=
  ⟨⟨fun _ => rfl, by decide⟩,
    fanout_batch_preserve_order w1Runner w1F w1Plan w1Queries 2
      (fun _ => rfl) (by decide)⟩

/-- Counterexample to C4: with an executor that raises on the second of three
tasks, neither `perform_searches` (the `asyncio.gather` fan-out) nor
`batch_parallel_searches` returns a complete outcome sequence — the exception
propagates out of the call (`asyncio.gather` without `return_exceptions`
re-raises), and the other tasks' results are lost. -/
theorem fanout_batch_failure_raises_counterexample :
    perform_searches c4Runner c4Plan = .error (.exception "boom") ∧
    batch_parallel_searches c4Runner c4Queries 3 =
      .error (.exception "boom") := by
  refine ⟨rfl, ?_⟩
  rw [batch_parallel_searches, if_neg (by decide : ¬ (3 : Int) = 0),
    if_neg (by decide : ¬ (3 : Int) < 0), batchLoop,
    dif_neg (by decide : ¬ (3 : Int).toNat = 0),
    dif_pos (by decide : 0 < c4Queries.length)]
  have hg : gather (((c4Queries.drop 0).take (3 : Int).toNat).map c4Runner) =
      .error (.exception "boom") := rfl
  rw [hg]

/-- C4 (amended): the fan-out strategy and the batch strategy return a
complete outcome sequence only when every task's Executor returns normally;
as soon as some task's Executor raises, the exception propagates out of the
call (`asyncio.gather` is used without `return_exceptions=True`) and no
outcome sequence is returned — failures short-circuit the whole call instead
of being delivered as data at their index. -/
theorem fanout_batch_raise_on_failure
    (runner : String → Nat × Except PyError String)
    (plan : List WebSearchItem) (queries : List String) (batch_size : Int)
    (hplan : ∃ item ∈ plan, isErr (runner (searchInput item)).2 = true)
    (hq : ∃ q ∈ queries, isErr (runner q).2 = true)
    (hbs : 1 ≤ batch_size) :
    (∃ e, perform_searches runner plan = .error e) ∧
    (∃ e, batch_parallel_searches runner queries batch_size = .error e) := by
  constructor
  · exact gather_map_err (searchTimed runner) plan hplan
  · rw [batch_parallel_searches, if_neg (by omega : ¬ batch_size = 0),
      if_neg (by omega : ¬ batch_size < 0)]
    exact batchLoop_err runner queries batch_size.toNat (by omega)
      queries.length 0 [] (by omega) (by simpa using hq)

/-- Witness for C4 (amended) at the concrete failing executor. -/
theorem fanout_batch_raise_on_failure_witness :
    ((∃ item ∈ c4Plan, isErr (c4Runner (searchInput item)).2 = true) ∧
     (∃ q ∈ c4Queries, isErr (c4Runner q).2 = true) ∧ (1 : Int) ≤ 2) ∧
    ((∃ e, perform_searches c4Runner c4Plan = .error e) ∧
     (∃ e, batch_parallel_searches c4Runner c4Queries 2 = .error e)) :=
  ⟨⟨by decide, by decide, by decide⟩,
    fanout_batch_raise_on_failure c4Runner c4Plan c4Queries 2
      (by decide) (by decide) (by decide)⟩

/-! Helper lemmas about `retryGo`. -/

theorem range_pow_shift (attempt r : Nat) (hr : 1 ≤ r) :
    (List.range r).map (fun j => 2 ^ (attempt + j)) =
      2 ^ attempt :: (List.range (r - 1)).map (fun j => 2 ^ (attempt + 1 + j)) := by
  conv_lhs => rw [show r = (r - 1) + 1 from by omega]
  rw [List.range_succ_eq_map, List.map_cons, List.map_map]
  refine congrArg₂ _ (by rw [Nat.add_zero]) (congrArg₂ _ ?_ rfl)
  funext j
  simp only [Function.comp_apply]
  rw [show attempt + Nat.succ j = attempt + 1 + j from by omega]

theorem retryGo_all_fail (ex : Nat → Except PyError String) (q : String) :
    ∀ remaining attempt calls sleeps, 1 ≤ remaining →
      (∀ a, attempt ≤ a → a < attempt + remaining →
        ∃ e, ex a = .error e ∧ e.isException = true) →
      ∃ e, ex (attempt + remaining - 1) = .error e ∧
        retryGo ex q remaining attempt calls sleeps =
          ⟨.ok (some (.failure q e.str (attempt + remaining))),
            calls + remaining,
            sleeps ++ (List.range (remaining - 1)).map
              (fun j => 2 ^ (attempt + j))⟩ := by
  intro remaining
  induction remaining with
  | zero => intro attempt calls sleeps h1 _; exact absurd h1 (by omega)
  | succ r ih =>
    intro attempt calls sleeps _ hfail
    obtain ⟨e, hea, hisE⟩ := hfail attempt (le_refl _) (by omega)
    by_cases hr : r = 0
    · subst hr
      refine ⟨e, by simpa using hea, ?_⟩
      simp [retryGo, hea, hisE]
    · obtain ⟨e2, he2, hgo⟩ := ih (attempt + 1) (calls + 1)
        (sleeps ++ [2 ^ attempt]) (by omega)
        (fun a ha1 ha2 => hfail a (by omega) (by omega))
      refine ⟨e2, ?_, ?_⟩
      · rw [show attempt + (r + 1) - 1 = attempt + 1 + r - 1 from by omega]
        exact he2
      · simp only [retryGo, hea, hisE, if_true, hr, if_false]
        rw [hgo]
        simp only [RetryRun.mk.injEq]
        refine ⟨?_, by omega, ?_⟩
        · rw [show attempt + 1 + r = attempt + (r + 1) from by omega]
        · rw [List.append_assoc, List.singleton_append,
            show r + 1 - 1 = r from by omega,
            range_pow_shift attempt r (by omega)]

theorem retryGo_success (ex : Nat → Except PyError String) (q v : String) :
    ∀ k remaining attempt calls sleeps, k < remaining →
      (∀ a, attempt ≤ a → a < attempt + k →
        ∃ e, ex a = .error e ∧ e.isException = true) →
      ex (attempt + k) = .ok v →
      retryGo ex q remaining attempt calls sleeps =
        ⟨.ok (some (.success q v (attempt + k + 1))), calls + k + 1,
          sleeps ++ (List.range k).map (fun j => 2 ^ (attempt + j))⟩ := by
  intro k
  induction k with
  | zero =>
    intro remaining attempt calls sleeps hk _ hok
    obtain ⟨r, rfl⟩ : ∃ r, remaining = r + 1 := ⟨remaining - 1, by omega⟩
    simp [retryGo, (by simpa using hok : ex attempt = .ok v)]
  | succ k ih =>
    intro remaining attempt calls sleeps hk hfail hok
    obtain ⟨r, rfl⟩ : ∃ r, remaining = r + 1 := ⟨remaining - 1, by omega⟩
    obtain ⟨e, hea, hisE⟩ := hfail attempt (le_refl _) (by omega)
    have hr0 : ¬ r = 0 := by omega
    have hrec := ih r (attempt + 1) (calls + 1) (sleeps ++ [2 ^ attempt])
      (by omega) (fun a h1 h2 => hfail a (by omega) (by omega))
      (by rw [show attempt + 1 + k = attempt + (k + 1) from by omega]; exact hok)
    simp only [retryGo, hea, hisE, if_true, hr0, if_false]
    rw [hrec]
    simp only [RetryRun.mk.injEq]
    refine ⟨?_, by omega, ?_⟩
    · rw [show attempt + 1 + k + 1 = attempt + (k + 1) + 1 from by omega]
    · rw [List.append_assoc, List.singleton_append,
        range_pow_shift attempt (k + 1) (by omega),
        show k + 1 - 1 = k from by omega]

/-- C5: for every task and `maxAttempts ≥ 1`, `search_with_retry` returns the
failure value carrying the last error and `attempts = maxAttempts` when all
`maxAttempts` invocations of the Executor fail, and returns a success value
with `attempts` equal to the attempts actually consumed as soon as one
invocation succeeds, invoking the Executor exactly that many times (no further
attempts after the first success). -/
theorem retry_exhaust_and_first_success
    (q : String) (m : Nat) (hm : 1 ≤ m)
    (exF : Nat → Except PyError String)
    (hF : ∀ a, a < m → ∃ e, exF a = .error e ∧ e.isException = true)
    (exS : Nat → Except PyError String) (k : Nat) (v : String) (hk : k < m)
    (hS : ∀ a, a < k → ∃ e, exS a = .error e ∧ e.isException = true)
    (hSk : exS k = .ok v) :
    (∃ e, exF (m - 1) = .error e ∧
      (search_with_retry exF q (m : Int)).result =
        .ok (some (.failure q e.str m))) ∧
    (search_with_retry exS q (m : Int)).result =
      .ok (some (.success q v (k + 1))) ∧
    (search_with_retry exS q (m : Int)).calls = k + 1 := by
  have hmn : ((m : Int)).toNat = m := Int.toNat_natCast m
  refine ⟨?_, ?_, ?_⟩
  · obtain ⟨e, he, hgo⟩ := retryGo_all_fail exF q m 0 0 [] hm
      (fun a _ h2 => hF a (by omega))
    refine ⟨e, by simpa using he, ?_⟩
    rw [search_with_retry, hmn, hgo]
    simp
  · rw [search_with_retry, hmn,
      retryGo_success exS q v k m 0 0 [] hk
        (fun a _ h2 => hS a (by omega)) (by simpa using hSk)]
    simp
  · rw [search_with_retry, hmn,
      retryGo_success exS q v k m 0 0 [] hk
        (fun a _ h2 => hS a (by omega)) (by simpa using hSk)]
    simp

/-- Witness for C5: an always-failing executor exhausts `max_retries = 3` with
`attempts = 3`; an executor failing twice then succeeding returns success with
`attempts = 3 = 2 + 1` after exactly 3 invocations. -/
theorem retry_exhaust_and_first_success_witness :
    ((1 : Nat) ≤ 3 ∧ (2 : Nat) < 3 ∧ w5ExS 2 = .ok "yes") ∧
    ((∃ e, w5ExF (3 - 1) = .error e ∧
       (search_with_retry w5ExF "q" ((3 : Nat) : Int)).result =
         .ok (some (.failure "q" e.str 3))) ∧
     (search_with_retry w5ExS "q" ((3 : Nat) : Int)).result =
       .ok (some (.success "q" "yes" (2 + 1))) ∧
     (search_with_retry w5ExS "q" ((3 : Nat) : Int)).calls = 2 + 1) :=
  ⟨⟨by decide, by decide, rfl⟩,
    retry_exhaust_and_first_success "q" 3 (by decide) w5ExF
      (fun a _ => ⟨.exception "err", rfl, rfl⟩) w5ExS 2 "yes" (by decide)
      (fun a ha => ⟨.exception "err", by
        simp only [w5ExS, if_pos (by omega : a < 2)], rfl⟩) rfl⟩

/-- Counterexample to C6: `search_with_retry` catches every `Exception`,
including `asyncio.TimeoutError`.  With an executor whose first attempt raises
`TimeoutError` and whose second attempt succeeds, the call retries (sleeping
1 second) and returns success with `attempts = 2` after 2 invocations — the
timeout is neither propagated immediately nor reported with an attempt count
of 1. -/
theorem retry_timeout_retried_counterexample :
    search_with_retry c6Ex "q" 3 =
      ⟨.ok (some (.success "q" "v" 2)), 2, [1]⟩ ∧ (2 : Nat) ≠ 1 :=
  ⟨rfl, by decide⟩

/-- C6 (amended): `search_with_retry` retries every error caught by
`except Exception` — in particular a `TimeoutError` is retried, not propagated
(an executor raising `TimeoutError` first and succeeding second yields success
with `attempts = 2`).  Only an error outside `Exception`, such as
`asyncio.CancelledError`, propagates immediately: it escapes the call as a
raised exception after exactly one invocation, with no backoff sleep and no
further attempt. -/
theorem retry_propagation_policy
    (exC : Nat → Except PyError String) (q : String) (mr1 : Int) (e : PyError)
    (hmr1 : 1 ≤ mr1) (hexC : exC 0 = .error e) (he : e.isException = false)
    (exT : Nat → Except PyError String) (mr2 : Int) (v : String)
    (hmr2 : 2 ≤ mr2) (hexT0 : exT 0 = .error .timeoutError)
    (hexT1 : exT 1 = .ok v) :
    search_with_retry exC q mr1 = ⟨.error e, 1, []⟩ ∧
    (search_with_retry exT q mr2).result = .ok (some (.success q v 2)) ∧
    (search_with_retry exT q mr2).calls = 2 := by
  have h1 : ∃ r, mr1.toNat = r + 1 := ⟨mr1.toNat - 1, by omega⟩
  have h2 : ∃ r, mr2.toNat = r + 2 := ⟨mr2.toNat - 2, by omega⟩
  obtain ⟨r1, hr1⟩ := h1
  obtain ⟨r2, hr2⟩ := h2
  have hrest : search_with_retry exT q mr2 =
      ⟨.ok (some (.success q v 2)), 2, [1]⟩ := by
    rw [search_with_retry, hr2]
    simp only [retryGo, hexT0, PyError.isException, if_true,
      (by omega : ¬ r2 + 1 = 0), if_false, List.nil_append, pow_zero, hexT1]
    rw [if_neg (by omega : ¬ r2 + 1 = 0)]
  refine ⟨?_, by rw [hrest], by rw [hrest]⟩
  rw [search_with_retry, hr1]
  simp only [retryGo, hexC, he, Bool.false_eq_true, if_false]

/-- Witness for C6 (amended): a `CancelledError` on the first attempt escapes
with one call and no sleep; a first-attempt `TimeoutError` followed by a
success is retried and yields success with `attempts = 2`. -/
theorem retry_propagation_policy_witness :
    ((1 : Int) ≤ 3 ∧ w6ExC 0 = .error .cancelledError ∧
     PyError.cancelledError.isException = false ∧ (2 : Int) ≤ 3 ∧
     c6Ex 0 = .error .timeoutError ∧ c6Ex 1 = .ok "v") ∧
    (search_with_retry w6ExC "q" 3 = ⟨.error .cancelledError, 1, []⟩ ∧
     (search_with_retry c6Ex "q" 3).result = .ok (some (.success "q" "v" 2)) ∧
     (search_with_retry c6Ex "q" 3).calls = 2) :=
  ⟨⟨by decide, rfl, rfl, by decide, rfl, rfl⟩,
    retry_propagation_policy w6ExC "q" 3 .cancelledError (by decide) rfl rfl
      c6Ex 3 "v" (by decide) rfl rfl⟩

/-- C7: every backoff sequence `search_with_retry` produces is
`[1, 2, 4, …]` seconds: the delay inserted between attempt `i` and attempt
`i+1` (1-indexed, i.e. the `i-1`-th element of `sleeps`, 0-indexed) is
`baseDelay * 2^(i-1)` with the code's fixed base delay of 1 second
(`asyncio.sleep(2 ** attempt)`), doubling on each successive retry with no
jitter and no upper cap. -/
theorem retry_backoff_doubling (ex : Nat → Except PyError String) (q : String)
    (mr : Int) (hmr : 2 ≤ mr) :
    (search_with_retry ex q mr).sleeps =
      (List.range (search_with_retry ex q mr).sleeps.length).map
        (fun i => 1 * 2 ^ i) := by
  suffices h : ∀ remaining attempt calls,
      ∃ L, (retryGo ex q remaining attempt calls
        ((List.range attempt).map (fun i => 2 ^ i))).sleeps =
          (List.range L).map (fun i => 2 ^ i) by
    obtain ⟨L, hL⟩ := h mr.toNat 0 0
    simp only [List.range_zero, List.map_nil] at hL
    rw [search_with_retry, hL]
    simp [List.length_map, List.length_range]
  intro remaining
  induction remaining with
  | zero => intro attempt calls; exact ⟨attempt, rfl⟩
  | succ r ih =>
    intro attempt calls
    simp only [retryGo]
    cases hx : ex attempt with
    | ok val => exact ⟨attempt, rfl⟩
    | error e =>
      by_cases hisE : e.isException
      · simp only [hisE, if_true]
        by_cases hr : r = 0
        · simp only [hr, if_true]
          exact ⟨attempt, rfl⟩
        · simp only [hr, if_false]
          have : (List.range attempt).map (fun i => 2 ^ i) ++ [2 ^ attempt] =
              (List.range (attempt + 1)).map (fun i => 2 ^ i) := by
            rw [List.range_succ, List.map_append, List.map_cons, List.map_nil]
          rw [this]
          exact ih (attempt + 1) (calls + 1)
      · simp only [hisE, if_false]
        exact ⟨attempt, rfl⟩

/-- Witness for C7 with an always-failing executor and `max_retries = 4`:
the produced backoff sequence is `[1, 2, 4]`. -/
theorem retry_backoff_doubling_witness :
    (2 : Int) ≤ 4 ∧
    (search_with_retry w7Ex "q" 4).sleeps =
      (List.range (search_with_retry w7Ex "q" 4).sleeps.length).map
        (fun i => 1 * 2 ^ i) :=
  ⟨by decide, retry_backoff_doubling w7Ex "q" 4 (by decide)⟩

/-- Counterexample to C9: neither a negative `batch_size` nor a non-positive
`max_retries` raises.  `batch_parallel_searches` with `batch_size = -1` makes
`range(0, len(queries), -1)` empty, so the call returns the empty result list;
`search_with_retry` with `max_retries = 0` returns `None` — both return values
instead of raising a precondition error. -/
theorem precondition_no_raise_counterexample :
    batch_parallel_searches c9Runner ["a", "b"] (-1) = .ok [] ∧
    (search_with_retry c9Ex "q" 0).result = .ok none :=
  ⟨rfl, rfl⟩

/-- C9 (amended): of the two precondition violations only `batch_size = 0`
raises (the `ValueError` coming from `range()` with a zero step).
A negative `batch_size` yields an empty loop and the call returns `[]`;
`max_retries < 1` yields an empty retry loop and the call returns `None`
(never invoking the Executor) — neither raises. -/
theorem precondition_violation_behavior
    (runner : String → Nat × Except PyError String) (queries : List String)
    (ex : Nat → Except PyError String) (q : String) (bsNeg mr : Int)
    (hbs : bsNeg < 0) (hmr : mr < 1) :
    batch_parallel_searches runner queries 0 =
      .error (.valueError "range() arg 3 must not be zero") ∧
    batch_parallel_searches runner queries bsNeg = .ok [] ∧
    search_with_retry ex q mr = ⟨.ok none, 0, []⟩ := by
  refine ⟨?_, ?_, ?_⟩
  · rw [batch_parallel_searches, if_pos rfl]
  · rw [batch_parallel_searches, if_neg (by omega), if_pos hbs]
  · rw [search_with_retry, Int.toNat_of_nonpos (by omega)]
    rfl

/-- Witness for C9 (amended) at `batch_size ∈ {0, -2}` and
`max_retries = -5`. -/
theorem precondition_violation_behavior_witness :
    ((-2 : Int) < 0 ∧ (-5 : Int) < 1) ∧
    (batch_parallel_searches w9Runner ["x"] 0 =
       .error (.valueError "range() arg 3 must not be zero") ∧
     batch_parallel_searches w9Runner ["x"] (-2) = .ok [] ∧
     search_with_retry w9Ex "p" (-5) = ⟨.ok none, 0, []⟩) :=
  ⟨⟨by decide, by decide⟩,
    precondition_violation_behavior w9Runner ["x"] w9Ex "p" (-2) (-5)
      (by decide) (by decide)⟩

/-- C10: for every query and every executor, `search_with_retry` with
`max_retries ≤ 0` returns `None` (a value that is none of the documented
outcome dictionaries and carries no attempt count), raises nothing, and never
invokes the Executor (`calls = 0`). -/
theorem retry_nonpositive_returns_none
    (ex : Nat → Except PyError String) (q : String) (mr : Int)
    (hmr : mr ≤ 0) :
    search_with_retry ex q mr = ⟨.ok none, 0, []⟩ := by
  rw [search_with_retry, Int.toNat_of_nonpos hmr]
  rfl

/-- Witness for C10 at `max_retries = 0`. -/
theorem retry_nonpositive_returns_none_witness :
    (0 : Int) ≤ 0 ∧ search_with_retry w10Ex "q" 0 = ⟨.ok none, 0, []⟩ :=
  ⟨by decide, retry_nonpositive_returns_none w10Ex "q" 0 (by decide)⟩

/-- Counterexample to C3: the leaf search functions (`search` in
`deep_research.py` and `search_task` in `parallel_research.py`) wrap no
exception handler around `Runner.run`.  With an Executor that raises, the
exception escapes the call (`isErr … = true`) instead of being caught and
mapped to a `Failed(error, attempt_count = 1)` outcome. -/
theorem search_leaf_raises_counterexample :
    search c3Runner c3Item = .error (.exception "boom") ∧
    (search_task c3Runner "q" 1).2 = .error (.exception "boom") ∧
    isErr (search c3Runner c3Item) = true :=
  ⟨rfl, rfl, rfl⟩

/-- C3 (amended): the leaf search functions invoke the Executor exactly once
per call and pass its outcome through unchanged: an exception raised by the
Executor propagates out of the call (it is not caught and not converted into
failure data; only `search_with_retry` and, for `TimeoutError`,
`search_with_timeout` perform such conversion), and a normal return is handed
back as the result. -/
theorem search_leaf_propagates
    (runner : String → Nat × Except PyError String)
    (item okItem : WebSearchItem) (q : String) (agentId : Nat) (e : PyError)
    (v : String)
    (h1 : (runner (searchInput item)).2 = .error e)
    (h2 : (runner q).2 = .error e)
    (h3 : (runner (searchInput okItem)).2 = .ok v) :
    search runner item = .error e ∧
    (search_task runner q agentId).2 = .error e ∧
    search runner okItem = .ok v := by
  refine ⟨h1, ?_, h3⟩
  rw [search_task]
  simp only [h2, Except.map]

/-- Witness for C3 (amended) at a concrete Executor raising only on the query
`"bad"`. -/
theorem search_leaf_propagates_witness :
    ((w3Runner (searchInput w3Item)).2 = .error (.exception "oops") ∧
     (w3Runner "bad").2 = .error (.exception "oops") ∧
     (w3Runner (searchInput w3OkItem)).2 = .ok "fine") ∧
    (search w3Runner w3Item = .error (.exception "oops") ∧
     (search_task w3Runner "bad" 2).2 = .error (.exception "oops") ∧
     search w3Runner w3OkItem = .ok "fine") :=
  ⟨⟨rfl, rfl, rfl⟩,
    search_leaf_propagates w3Runner w3Item w3OkItem "bad" 2
      (.exception "oops") "fine" rfl rfl rfl⟩

/-- C8: `search_with_timeout` returns exactly the timeout outcome when the
wrapped run does not complete within the deadline — `asyncio.wait_for` then
sends a (best-effort) cancellation signal to the underlying task, modelled by
the `true` flag — and returns the task's real outcome, in particular the
success value, when the run completes within the deadline (no cancellation
signal sent). -/
theorem timeout_outcome_spec
    (slowRunner fastRunner : String → Nat × Except PyError String)
    (q1 q2 : String) (timeout : Nat) (v : String)
    (hslow : timeout < (slowRunner q1).1)
    (hfast : (fastRunner q2).1 ≤ timeout)
    (hok : (fastRunner q2).2 = .ok v) :
    search_with_timeout slowRunner q1 timeout =
      (.ok ⟨q1, none, "timeout"⟩, true) ∧
    search_with_timeout fastRunner q2 timeout =
      (.ok ⟨q2, some v, "success"⟩, false) := by
  constructor
  · rw [search_with_timeout, if_pos hslow]
  · rw [search_with_timeout, if_neg (not_lt.mpr hfast), hok]

/-- Witness for C8: a 50-second task against a 30-second deadline yields the
timeout outcome with a cancellation signal; a 1-second task yields its real
success outcome. -/
theorem timeout_outcome_spec_witness :
    (30 < (w8Slow "a").1 ∧ (w8Fast "b").1 ≤ 30 ∧ (w8Fast "b").2 = .ok "ans") ∧
    (search_with_timeout w8Slow "a" 30 = (.ok ⟨"a", none, "timeout"⟩, true) ∧
     search_with_timeout w8Fast "b" 30 =
       (.ok ⟨"b", some "ans", "success"⟩, false)) :=
  ⟨⟨by decide, by decide, rfl⟩,
    timeout_outcome_spec w8Slow w8Fast "a" "b" 30 "ans"
      (by decide) (by decide) rfl⟩

/-! Helper lemmas about the minimal completion time and the first completed
task, used by the race analysis. -/

theorem foldl_min_le_init {β : Type} (l : List (Nat × β)) (a : Nat) :
    l.foldl (fun m p => min m p.1) a ≤ a := by
  induction l generalizing a with
  | nil => exact le_refl a
  | cons hd tl ih =>
    rw [List.foldl_cons]
    exact le_trans (ih (min a hd.1)) (min_le_left _ _)

theorem foldl_min_le_mem {β : Type} (l : List (Nat × β)) (a : Nat) :
    ∀ p ∈ l, l.foldl (fun m p => min m p.1) a ≤ p.1 := by
  induction l generalizing a with
  | nil => intro p hp; cases hp
  | cons hd tl ih =>
    intro p hp
    rw [List.foldl_cons]
    rcases List.mem_cons.mp hp with rfl | hmem
    · exact le_trans (foldl_min_le_init tl (min a p.1)) (min_le_right _ _)
    · exact ih (min a hd.1) p hmem

theorem foldl_min_mem {β : Type} (l : List (Nat × β)) (a : Nat) :
    l.foldl (fun m p => min m p.1) a = a ∨
      ∃ p ∈ l, l.foldl (fun m p => min m p.1) a = p.1 := by
  induction l generalizing a with
  | nil => exact Or.inl rfl
  | cons hd tl ih =>
    rw [List.foldl_cons]
    rcases ih (min a hd.1) with h | ⟨p, hp, hep⟩
    · rcases le_total a hd.1 with hle | hle
      · exact Or.inl (h.trans (min_eq_left hle))
      · exact Or.inr ⟨hd, List.mem_cons_self hd tl, h.trans (min_eq_right hle)⟩
    · exact Or.inr ⟨p, List.mem_cons_of_mem hd hp, hep⟩

theorem foldl_min_eq_init {β : Type} (l : List (Nat × β)) (a : Nat)
    (h : ∀ p ∈ l, a ≤ p.1) : l.foldl (fun m p => min m p.1) a = a := by
  rcases foldl_min_mem l a with heq | ⟨p, hp, hep⟩
  · exact heq
  · have h1 := foldl_min_le_init l a
    have h2 := h p hp
    omega

theorem foldl_min_ge {β : Type} (l : List (Nat × β)) (a c : Nat) (ha : c ≤ a)
    (h : ∀ p ∈ l, c ≤ p.1) : c ≤ l.foldl (fun m p => min m p.1) a := by
  rcases foldl_min_mem l a with heq | ⟨p, hp, hep⟩
  · omega
  · have := h p hp
    omega

theorem find_eq_first_min {β : Type} (post : List (Nat × β)) (w : Nat × β)
    (τ : Nat) (hτ : w.1 = τ) :
    ∀ pre : List (Nat × β), (∀ p ∈ pre, p.1 ≠ τ) →
      (pre ++ w :: post).find? (fun p => p.1 == τ) = some w := by
  intro pre
  induction pre with
  | nil =>
    intro _
    rw [List.nil_append]
    exact List.find?_cons_of_pos _ (by simp [hτ])
  | cons hd tl ih =>
    intro hpre
    rw [List.cons_append,
      List.find?_cons_of_neg _ (by simp [hpre hd (List.mem_cons_self hd tl)])]
    exact ih (fun p hp => hpre p (List.mem_cons_of_mem hd hp))

theorem filter_min_singleton {β : Type} (pre post : List (Nat × β))
    (w : Nat × β) (τ : Nat) (hτ : w.1 = τ) (hpre : ∀ p ∈ pre, p.1 ≠ τ)
    (hpost : ∀ p ∈ post, p.1 ≠ τ) :
    (pre ++ w :: post).filter (fun p => p.1 == τ) = [w] := by
  rw [List.filter_append, List.filter_cons]
  have h1 : pre.filter (fun p => (p.1 == τ)) = [] :=
    List.filter_eq_nil_iff.mpr (fun p hp => by simp [hpre p hp])
  have h2 : post.filter (fun p => (p.1 == τ)) = [] :=
    List.filter_eq_nil_iff.mpr (fun p hp => by simp [hpost p hp])
  simp [h1, h2, hτ]

/-- Counterexample to C2: two raced tasks with distinct completion times, the
first of which completes exceptionally.  `race_to_answer` calls
`list(done)[0].result()` *before* the `task.cancel()` loop, so the winner's
exception propagates out of the call (first component `.error`) and zero
cancellation signals are sent — not the `N - 1 = 1` cancelled losers the
claim demands, and no winner outcome is returned to the caller. -/
theorem race_failed_winner_counterexample :
    race_to_answer c2Tasks = (.error (.exception "fail"), 0) ∧
    c2Tasks.length - 1 = 1 ∧ (0 : Nat) ≠ 1 :=
  ⟨rfl, rfl, by decide⟩

/-- C2 (amended): for every nonempty list of raced tasks whose earliest
completion time is uniquely attained (position `pre ++ w :: post`, `w`
strictly earliest), the first task to reach a terminal outcome — of any kind —
is declared the winner.  If the winner completed normally, its outcome is
returned and a cancellation signal is sent to each of the `N - 1` pending
tasks (the reported losers), without waiting for them to stop.  If the winner
completed exceptionally, `winner.result()` re-raises: the exception propagates
out of the call, and the cancellation loop is never reached, so zero
cancellation signals are sent. -/
theorem race_first_completed_spec {α : Type}
    (pre post : List (Nat × Except PyError α)) (w : Nat × Except PyError α)
    (hpre : ∀ p ∈ pre, w.1 < p.1) (hpost : ∀ p ∈ post, w.1 < p.1) :
    race_to_answer (pre ++ w :: post) =
      (w.2, if isErr w.2 = true then 0 else pre.length + post.length) := by
  cases pre with
  | nil =>
    rw [List.nil_append]
    have htmin : post.foldl (fun m p => min m p.1) w.1 = w.1 :=
      foldl_min_eq_init post w.1 (fun p hp => le_of_lt (hpost p hp))
    simp only [race_to_answer, htmin]
    have hfind : (w :: post).find? (fun p => p.1 == w.1) = some w :=
      find_eq_first_min post w w.1 rfl [] (by intro p hp; cases hp)
    rw [hfind]
    simp only [Option.getD_some]
    cases hw : w.2 with
    | error e => simp [isErr]
    | ok v =>
      have hfilter : (w :: post).filter (fun p => p.1 == w.1) = [w] :=
        filter_min_singleton [] post w w.1 rfl (by intro p hp; cases hp)
          (fun p hp => Nat.ne_of_gt (hpost p hp))
      rw [hfilter]
      simp [isErr]
  | cons q pre' =>
    rw [List.cons_append]
    have hq := hpre q (List.mem_cons_self q pre')
    have hpre' : ∀ p ∈ pre', w.1 < p.1 :=
      fun p hp => hpre p (List.mem_cons_of_mem q hp)
    have hmemw : ∀ p ∈ pre' ++ w :: post, w.1 ≤ p.1 := by
      intro p hp
      rcases List.mem_append.mp hp with h1 | h2
      · exact le_of_lt (hpre' p h1)
      · rcases List.mem_cons.mp h2 with rfl | h3
        · exact le_refl _
        · exact le_of_lt (hpost p h3)
    have htmin : (pre' ++ w :: post).foldl (fun m p => min m p.1) q.1 = w.1 := by
      have hle : (pre' ++ w :: post).foldl (fun m p => min m p.1) q.1 ≤ w.1 :=
        foldl_min_le_mem _ q.1 w
          (List.mem_append.mpr (Or.inr (List.mem_cons_self w post)))
      have hge : w.1 ≤ (pre' ++ w :: post).foldl (fun m p => min m p.1) q.1 :=
        foldl_min_ge _ q.1 w.1 (le_of_lt hq) hmemw
      omega
    simp only [race_to_answer, htmin]
    have hfind : (q :: (pre' ++ w :: post)).find? (fun p => p.1 == w.1) =
        some w := by
      have := find_eq_first_min post w w.1 rfl (q :: pre')
        (by
          intro p hp
          rcases List.mem_cons.mp hp with rfl | hmem
          · exact Nat.ne_of_gt hq
          · exact Nat.ne_of_gt (hpre' p hmem))
      rwa [List.cons_append] at this
    rw [hfind]
    simp only [Option.getD_some]
    cases hw : w.2 with
    | error e => simp [isErr]
    | ok v =>
      have hfilter : (q :: (pre' ++ w :: post)).filter (fun p => p.1 == w.1) =
          [w] := by
        have := filter_min_singleton (q :: pre') post w w.1 rfl
          (by
            intro p hp
            rcases List.mem_cons.mp hp with rfl | hmem
            · exact Nat.ne_of_gt hq
            · exact Nat.ne_of_gt (hpre' p hmem))
          (fun p hp => Nat.ne_of_gt (hpost p hp))
        rwa [List.cons_append] at this
      rw [hfilter]
      simp [isErr, Prod.ext_iff]
      omega

/-- Witness for C2 (amended): racing four tasks whose unique earliest
completion (time 2) succeeds returns the winning value and sends `N - 1 = 3`
cancellation signals. -/
theorem race_first_completed_spec_witness :
    ((∀ p ∈ w2Pre, w2Winner.1 < p.1) ∧ (∀ p ∈ w2Post, w2Winner.1 < p.1)) ∧
    race_to_answer (w2Pre ++ w2Winner :: w2Post) =
      (w2Winner.2,
        if isErr w2Winner.2 = true then 0 else w2Pre.length + w2Post.length) :=
  ⟨⟨by decide, by decide⟩,
    race_first_completed_spec w2Pre w2Post w2Winner (by decide) (by decide)⟩

end Research
